import Mathlib

/-!
Verification of the Blackjack-Pro strategy engine.

The definitions below are a shallow embedding of `src/js/strategy.js`
(class `BlackjackStrategy`) and of the hand classifier `calculateHand` /
`getCardValue` from the UI file.  Card ranks are the thirteen symbols
`2..10, J, Q, K, A`; actions and advice actions are the literal strings
used by the JavaScript source.  The JS `Map` used as cache is modelled as
an insertion-ordered association list, which matches `Map`'s iteration
and `keys().next()` semantics.
-/

/-- Card ranks 2..10, J, Q, K, A. -/
inductive Rank where
  | r2 | r3 | r4 | r5 | r6 | r7 | r8 | r9 | r10
  | rJ | rQ | rK | rA
deriving DecidableEq, Repr

/-- The `dealerValues` table of `strategy.js` (constructor, lines 16-19):
ranks 2..10 map to their number, J/Q/K to 10, A to 11. -/
def dealerValues : Rank → Nat
  | .r2 => 2 | .r3 => 3 | .r4 => 4 | .r5 => 5 | .r6 => 6
  | .r7 => 7 | .r8 => 8 | .r9 => 9 | .r10 => 10
  | .rJ => 10 | .rQ => 10 | .rK => 10 | .rA => 11

/-- The UI file's `getCardValue`: `'A'` is 11, face cards are 10, other
ranks parse to their number.  Identical table to `dealerValues`. -/
def getCardValue (card : Rank) : Nat :=
  match card with
  | .rA => 11
  | .rJ => 10 | .rQ => 10 | .rK => 10
  | .r2 => 2 | .r3 => 3 | .r4 => 4 | .r5 => 5 | .r6 => 6
  | .r7 => 7 | .r8 => 8 | .r9 => 9 | .r10 => 10

/-- The advice object `{action, explanation}` returned by the engine. -/
structure Advice where
  action : String
  explanation : String
deriving DecidableEq, Repr

/-- Player hand as passed to the engine: derived `total`, `isSoft`,
`isPair` plus the raw cards (empty in total mode). -/
structure Hand where
  total : Nat
  isSoft : Bool
  isPair : Bool
  cards : List Rank
deriving DecidableEq, Repr

/-- `alwaysSplitPairs` lookup set: 8,8 and A,A. -/
def alwaysSplitPairs : List Nat := [8, 11]

/-- `neverSplitPairs` lookup set: 5,5 and 10,10. -/
def neverSplitPairs : List Nat := [5, 10]

/-- `weakDealerCards` lookup set (2-6), initialised by the constructor. -/
def weakDealerCards : List Nat := [2, 3, 4, 5, 6]

/-- `strongDealerCards` lookup set (7-A), initialised by the constructor. -/
def strongDealerCards : List Nat := [7, 8, 9, 10, 11]

/-- `getHardStrategy(total, dealerValue, availableActions)` of
`strategy.js`, lines 337-466.  `canDouble` / `canSurrender` are inlined
as `availableActions.contains`. -/
def getHardStrategy (total : Nat) (dealerValue : Nat)
    (availableActions : List String) : Advice :=
  if total ≥ 17 then
    ⟨"STAND", toString total ++ " is hoog genoeg - risico op busten is te groot."⟩
  else if total = 16 then
    if dealerValue ≥ 9 ∧ availableActions.contains "surrender" then
      ⟨"SURRENDER", "16 tegen 9-A is zeer ongunstig - surrender minimaliseert verlies."⟩
    else if 2 ≤ dealerValue ∧ dealerValue ≤ 6 then
      ⟨"STAND", "Dealer heeft hoge bust kans - blijf staan met 16."⟩
    else
      ⟨"HIT", "16 is zwak tegen sterke dealer - risico nemen."⟩
  else if total = 15 then
    if dealerValue = 10 ∧ availableActions.contains "surrender" then
      ⟨"SURRENDER", "15 tegen 10 is zeer ongunstig - surrender is beste optie."⟩
    else if 2 ≤ dealerValue ∧ dealerValue ≤ 6 then
      ⟨"STAND", "Dealer kan gemakkelijk busten - blijf staan."⟩
    else
      ⟨"HIT", "15 is te zwak - neem het risico."⟩
  else if total = 13 ∨ total = 14 then
    if 2 ≤ dealerValue ∧ dealerValue ≤ 6 then
      ⟨"STAND", "Dealer heeft zwakke kaart - laat dealer busten."⟩
    else
      ⟨"HIT", toString total ++ " is te laag tegen sterke dealer."⟩
  else if total = 12 then
    if 4 ≤ dealerValue ∧ dealerValue ≤ 6 then
      ⟨"STAND", "Dealer heeft hoogste bust kans - blijf staan."⟩
    else
      ⟨"HIT", "12 is te laag - bust kans is acceptabel (alleen 10,J,Q,K)."⟩
  else if total = 11 then
    if availableActions.contains "double" then
      ⟨"DOUBLE", "11 is perfect voor doubling - grote kans op 21."⟩
    else
      ⟨"HIT", "11 kan niet busten - neem een kaart."⟩
  else if total = 10 then
    if 2 ≤ dealerValue ∧ dealerValue ≤ 9 ∧ availableActions.contains "double" then
      ⟨"DOUBLE", "10 is sterk voor doubling tegen deze dealer kaart."⟩
    else
      ⟨"HIT", "10 kan niet busten - neem een kaart."⟩
  else if total = 9 then
    if 3 ≤ dealerValue ∧ dealerValue ≤ 6 ∧ availableActions.contains "double" then
      ⟨"DOUBLE", "Double 9 tegen zwakke dealer kaarten."⟩
    else
      ⟨"HIT", "9 is te laag - blijf kaarten nemen."⟩
  else
    ⟨"HIT", "Hand is te laag - kan niet busten, blijf kaarten nemen."⟩

/-- `getSoftStrategy(total, dealerValue, availableActions)` of
`strategy.js`, lines 239-332. -/
def getSoftStrategy (total : Nat) (dealerValue : Nat)
    (availableActions : List String) : Advice :=
  if total = 20 then
    ⟨"STAND", "Soft 20 is bijna perfect - blijf staan."⟩
  else if total = 19 then
    if dealerValue = 6 ∧ availableActions.contains "double" then
      ⟨"DOUBLE", "Double soft 19 tegen 6 voor extra winst (dealer heeft hoge bust kans)."⟩
    else
      ⟨"STAND", "Soft 19 is sterk - blijf staan."⟩
  else if total = 18 then
    if dealerValue ≥ 9 then
      ⟨"HIT", "Soft 18 is zwak tegen 9-A - probeer te verbeteren."⟩
    else if (3 ≤ dealerValue ∧ dealerValue ≤ 6) ∧ availableActions.contains "double" then
      ⟨"DOUBLE", "Double soft 18 tegen zwakke dealer voor meer winst."⟩
    else
      ⟨"STAND", "Soft 18 is redelijk tegen deze kaart."⟩
  else if total = 17 then
    if (3 ≤ dealerValue ∧ dealerValue ≤ 6) ∧ availableActions.contains "double" then
      ⟨"DOUBLE", "Double soft 17 tegen zwakke dealer - kan niet busten."⟩
    else
      ⟨"HIT", "Soft 17 is zwak - neem een kaart (kan niet busten)."⟩
  else if total = 15 ∨ total = 16 then
    if (4 ≤ dealerValue ∧ dealerValue ≤ 6) ∧ availableActions.contains "double" then
      ⟨"DOUBLE", "Double tegen dealer 4-6 voor optimale winst."⟩
    else
      ⟨"HIT", "Hand is te zwak - neem kaarten (kan niet busten)."⟩
  else if total = 13 ∨ total = 14 then
    if (dealerValue = 5 ∨ dealerValue = 6) ∧ availableActions.contains "double" then
      ⟨"DOUBLE", "Double tegen de zwakste dealer kaarten."⟩
    else
      ⟨"HIT", "Hand is zwak - blijf kaarten nemen."⟩
  else
    ⟨"HIT", "Hand is te laag - blijf kaarten nemen."⟩

/-- `getPairStrategy(cardValue, dealerValue, availableActions)` of
`strategy.js`, lines 124-234.  The first argument is `hand.cards[0]`:
`none` models the JavaScript `undefined` of an empty card list, in which
case `card` is `NaN`, every guard of the function is false, and the
default delegation `getHardStrategy(NaN * 2, ...)` falls through every
guard of `getHardStrategy` to its final hit branch. -/
def getPairStrategy (cardValue : Option Rank) (dealerValue : Nat)
    (availableActions : List String) : Advice :=
  match cardValue with
  | none =>
      ⟨"HIT", "Hand is te laag - kan niet busten, blijf kaarten nemen."⟩
  | some rank =>
    let card := dealerValues rank
    if alwaysSplitPairs.contains card then
      ⟨"SPLIT", if card = 11 then
          "Split aces altijd - geeft twee kansen op blackjack."
        else
          "Split 8s altijd - 16 is een slechte hand, twee 18s is beter."⟩
    else if neverSplitPairs.contains card then
      if card = 10 then
        ⟨"STAND", "20 is een te goede hand om te splitten."⟩
      else
        getHardStrategy 10 dealerValue availableActions
    else if card = 9 then
      if dealerValue = 7 ∨ dealerValue ≥ 10 then
        ⟨"STAND", "18 is sterk genoeg tegen deze dealer kaart."⟩
      else
        ⟨"SPLIT", "Split 9s tegen zwakkere dealer kaarten voor meer winst."⟩
    else if card = 7 then
      if 2 ≤ dealerValue ∧ dealerValue ≤ 7 then
        ⟨"SPLIT", "Split 7s tegen zwakkere dealer kaarten."⟩
      else
        ⟨"HIT", "14 is te zwak - neem een kaart."⟩
    else if card = 6 then
      if 2 ≤ dealerValue ∧ dealerValue ≤ 6 then
        ⟨"SPLIT", "Split 6s wanneer dealer zwak is (bust kans)."⟩
      else
        ⟨"HIT", "12 is te zwak tegen sterke dealer kaart."⟩
    else if card = 4 then
      if dealerValue = 5 ∨ dealerValue = 6 then
        ⟨"SPLIT", "Split 4s alleen tegen de zwakste dealer kaarten."⟩
      else
        ⟨"HIT", "8 is te laag - neem een kaart."⟩
    else if card = 3 then
      if 2 ≤ dealerValue ∧ dealerValue ≤ 7 then
        ⟨"SPLIT", "Split 3s tegen zwakkere dealer kaarten."⟩
      else
        ⟨"HIT", "6 is te laag tegen sterke dealer kaart."⟩
    else if card = 2 then
      if 2 ≤ dealerValue ∧ dealerValue ≤ 7 then
        ⟨"SPLIT", "Split 2s tegen zwakkere dealer kaarten."⟩
      else
        ⟨"HIT", "4 is te laag - neem kaarten tot 12+."⟩
    else
      getHardStrategy (card * 2) dealerValue availableActions

/-- Mirror of the guard structure of `getPairStrategy`: `true` exactly
when control reaches the final default delegation
`getHardStrategy(card * 2, ...)` (lines 232-233). -/
def pairDefaultReached (cardValue : Option Rank) : Bool :=
  match cardValue with
  | none => true
  | some rank =>
    let card := dealerValues rank
    !(alwaysSplitPairs.contains card || neverSplitPairs.contains card ||
      card == 9 || card == 7 || card == 6 || card == 4 || card == 3 || card == 2)

/-- The fold of the first loop of `calculateHand` (part_000, lines
341-350): accumulate the value sum and the number of aces. -/
def countHand (cards : List Rank) : Nat × Nat :=
  cards.foldl
    (fun acc card =>
      (acc.1 + getCardValue card, if card = Rank.rA then acc.2 + 1 else acc.2))
    (0, 0)

/-- The `while (total > 21 && aces > 0)` adjustment loop of
`calculateHand` (lines 352-356): each pass converts one ace from 11 to 1
by subtracting 10. -/
def adjustForAces (total : Nat) : Nat → Nat × Nat
  | 0 => (total, 0)
  | aces + 1 =>
    if total > 21 then adjustForAces (total - 10) aces else (total, aces + 1)

/-- `calculateHand(cards)` of the UI file (part_000, lines 341-374):
total with ace adjustment, `isSoft`, `isPair` (exactly two cards of
equal numeric value), and the raw cards. -/
def calculateHand (cards : List Rank) : Hand :=
  let counted := countHand cards
  let adjusted := adjustForAces counted.1 counted.2
  let isSoft := decide (adjusted.2 > 0) && decide (adjusted.1 ≤ 21)
  let isPair :=
    match cards with
    | [c1, c2] => getCardValue c1 == getCardValue c2
    | _ => false
  { total := adjusted.1, isSoft := isSoft, isPair := isPair, cards := cards }

/-- The engine's cache: a JS `Map` keyed by strings, modelled as an
insertion-ordered association list with distinct keys. -/
structure CacheState where
  entries : List (String × Advice)
deriving DecidableEq, Repr

/-- `cacheMaxSize` from the constructor (line 23). -/
def cacheMaxSize : Nat := 100

/-- `getCacheKey(hand, dealerValue, availableActions)` (lines 49-51):
the template string
`total-isSoft-isPair-dealerValue-availableActions.join(',')`. -/
def getCacheKey (hand : Hand) (dealerValue : Nat)
    (availableActions : List String) : String :=
  toString hand.total ++ "-" ++ toString hand.isSoft ++ "-" ++
    toString hand.isPair ++ "-" ++ toString dealerValue ++ "-" ++
    String.intercalate "," availableActions

/-- `getCachedAdvice` (lines 56-64): look the key up in the cache,
`none` models the `null` of a miss. -/
def getCachedAdvice (st : CacheState) (hand : Hand) (dealerValue : Nat)
    (availableActions : List String) : Option Advice :=
  (st.entries.find?
    (fun e => e.1 == getCacheKey hand dealerValue availableActions)).map (·.2)

/-- `setCacheAdvice` (lines 69-78): when the cache is at
`cacheMaxSize`, delete the first (oldest) key of the `Map`, then `set`
the new key.  `Map.set` updates in place when the key is present and
appends otherwise. -/
def setCacheAdvice (st : CacheState) (hand : Hand) (dealerValue : Nat)
    (availableActions : List String) (advice : Advice) : CacheState :=
  let st1 :=
    if st.entries.length ≥ cacheMaxSize then
      match st.entries.head? with
      | some firstEntry =>
          CacheState.mk (st.entries.filter (fun e => !(e.1 == firstEntry.1)))
      | none => st
    else st
  let key := getCacheKey hand dealerValue availableActions
  if st1.entries.any (fun e => e.1 == key) then
    CacheState.mk
      (st1.entries.map (fun e => if e.1 == key then (key, advice) else e))
  else
    CacheState.mk (st1.entries ++ [(key, advice)])

/-- The advice computation of `getAdvice` (lines 96-114) without the
cache: consult the pair resolver when the hand is a pair and split is
available, keep its result only when it is SPLIT, otherwise dispatch on
softness.  `hand.cards.head?` is JS `hand.cards[0]`. -/
def computeAdvice (hand : Hand) (dealerValue : Nat)
    (availableActions : List String) : Advice :=
  if hand.isPair && availableActions.contains "split" &&
      (getPairStrategy hand.cards.head? dealerValue availableActions).action
        == "SPLIT" then
    getPairStrategy hand.cards.head? dealerValue availableActions
  else if hand.isSoft then
    getSoftStrategy hand.total dealerValue availableActions
  else
    getHardStrategy hand.total dealerValue availableActions

/-- `getAdvice(hand, dealerCard, availableActions)` (lines 87-119) with
the cache made explicit: resolve the dealer value, return a cache hit
unchanged, otherwise compute the advice and cache it.  In the source the
call to `setCacheAdvice` is duplicated on the pair-split early return
and the soft/hard path; both store the same advice under the same key,
collapsed here into one store of `computeAdvice`'s result. -/
def getAdvice (st : CacheState) (hand : Hand) (dealerCard : Rank)
    (availableActions : List String) : Advice × CacheState :=
  let dealerValue := dealerValues dealerCard
  match getCachedAdvice st hand dealerValue availableActions with
  | some cachedResult => (cachedResult, st)
  | none =>
    let advice := computeAdvice hand dealerValue availableActions
    (advice, setCacheAdvice st hand dealerValue availableActions advice)

/-- One engine query: the arguments of a `getAdvice` call. -/
structure Query where
  hand : Hand
  dealerCard : Rank
  availableActions : List String

/-- Run a sequence of `getAdvice` calls against the cache, starting
from the empty cache of a fresh `BlackjackStrategy`. -/
def runQueries (qs : List Query) : CacheState :=
  qs.foldl
    (fun st q => (getAdvice st q.hand q.dealerCard q.availableActions).2)
    (CacheState.mk [])

/-- A cache filled to `cacheMaxSize` with distinct one-character keys,
used to exercise the eviction behaviour at capacity. -/
def fullCache : CacheState :=
  CacheState.mk ((List.range cacheMaxSize).map
    (fun i => (String.mk [Char.ofNat (65 + i)], Advice.mk "HIT" "")))

/-! ### Helper lemmas about the resolvers and the cache -/

set_option maxHeartbeats 1000000 in
theorem getHardStrategy_action_cases (t d : Nat) (a : List String) :
    (getHardStrategy t d a).action = "HIT" ∨
    (getHardStrategy t d a).action = "STAND" ∨
    ((getHardStrategy t d a).action = "DOUBLE" ∧ a.contains "double" = true) ∨
    ((getHardStrategy t d a).action = "SURRENDER" ∧ a.contains "surrender" = true) := by
  unfold getHardStrategy
  split_ifs <;> simp_all

set_option maxHeartbeats 1000000 in
theorem getSoftStrategy_action_cases (t d : Nat) (a : List String) :
    (getSoftStrategy t d a).action = "HIT" ∨
    (getSoftStrategy t d a).action = "STAND" ∨
    ((getSoftStrategy t d a).action = "DOUBLE" ∧ a.contains "double" = true) := by
  unfold getSoftStrategy
  split_ifs <;> simp_all

theorem countHand_go (cards : List Rank) (t a : Nat) :
    cards.foldl
      (fun acc card =>
        (acc.1 + getCardValue card, if card = Rank.rA then acc.2 + 1 else acc.2))
      (t, a)
    = (t + (cards.map getCardValue).sum, a + cards.count Rank.rA) := by
  induction cards generalizing t a with
  | nil => simp
  | cons c cs ih =>
    by_cases hc : c = Rank.rA <;>
      simp [List.foldl_cons, ih, hc, List.count_cons] <;> omega

theorem string_append_cancel_left {p x y : String} (h : p ++ x = p ++ y) : x = y := by
  have hd := congrArg String.data h
  simp only [String.data_append] at hd
  exact String.ext (List.append_cancel_left hd)

theorem setCacheAdvice_length_le (st : CacheState) (hand : Hand) (d : Nat)
    (acts : List String) (advice : Advice)
    (hst : st.entries.length ≤ cacheMaxSize) :
    (setCacheAdvice st hand d acts advice).entries.length ≤ cacheMaxSize := by
  obtain ⟨entries⟩ := st
  cases entries with
  | nil => simp [setCacheAdvice, cacheMaxSize]
  | cons e tl =>
    unfold setCacheAdvice
    dsimp only at hst ⊢
    have hfl : ((e :: tl).filter (fun x => !(x.1 == e.1))).length ≤ tl.length := by
      rw [List.filter_cons]
      simp only [beq_self_eq_true, Bool.not_true, Bool.false_eq_true, if_false]
      exact List.length_filter_le _ tl
    by_cases hge : (e :: tl).length ≥ cacheMaxSize
    · rw [if_pos hge]
      dsimp only [List.head?_cons]
      split_ifs <;> simp_all [cacheMaxSize] <;> omega
    · rw [if_neg hge]
      split_ifs <;> simp_all [cacheMaxSize] <;> omega

theorem getAdvice_snd_length_le (st : CacheState) (hand : Hand) (c : Rank)
    (acts : List String) (hst : st.entries.length ≤ cacheMaxSize) :
    ((getAdvice st hand c acts).2).entries.length ≤ cacheMaxSize := by
  unfold getAdvice
  dsimp only
  rcases hcc : getCachedAdvice st hand (dealerValues c) acts with - | cached
  · simp only [hcc]
    exact setCacheAdvice_length_le st hand (dealerValues c) acts _ hst
  · simp only [hcc]
    exact hst

theorem runQueries_length_le (qs : List Query) :
    (runQueries qs).entries.length ≤ cacheMaxSize := by
  unfold runQueries
  have main : ∀ (l : List Query) (st : CacheState),
      st.entries.length ≤ cacheMaxSize →
      (l.foldl (fun st q => (getAdvice st q.hand q.dealerCard q.availableActions).2)
        st).entries.length ≤ cacheMaxSize := by
    intro l
    induction l with
    | nil => intro st h; simpa using h
    | cons q qt ih =>
      intro st h
      simp only [List.foldl_cons]
      exact ih _ (getAdvice_snd_length_le _ _ _ _ h)
  exact main qs (CacheState.mk []) (by simp [cacheMaxSize])

theorem setCacheAdvice_evicts_oldest (st : CacheState) (hand : Hand) (d : Nat)
    (acts : List String) (advice : Advice)
    (hlen : st.entries.length = cacheMaxSize)
    (hnodup : (st.entries.map Prod.fst).Nodup)
    (hmiss : getCachedAdvice st hand d acts = none) :
    (setCacheAdvice st hand d acts advice).entries
      = st.entries.tail ++ [(getCacheKey hand d acts, advice)] := by
  obtain ⟨entries⟩ := st
  cases entries with
  | nil => simp [cacheMaxSize] at hlen
  | cons e tl =>
    unfold setCacheAdvice
    dsimp only at hlen hnodup hmiss ⊢
    have hge : (e :: tl).length ≥ cacheMaxSize := le_of_eq hlen.symm
    rw [if_pos hge]
    dsimp only [List.head?_cons]
    simp only [getCachedAdvice, Option.map_eq_none', List.find?_eq_none] at hmiss
    have hnotin : e.1 ∉ tl.map Prod.fst := (List.nodup_cons.mp hnodup).1
    have hfe : (e :: tl).filter (fun x => !(x.1 == e.1)) = tl := by
      rw [List.filter_cons]
      simp only [beq_self_eq_true, Bool.not_true, Bool.false_eq_true, if_false]
      apply List.filter_eq_self.mpr
      intro x hx
      have : x.1 ≠ e.1 := by
        intro hcontra
        exact hnotin (hcontra ▸ List.mem_map_of_mem Prod.fst hx)
      simp [this]
    rw [hfe]
    have hany : tl.any (fun x => x.1 == getCacheKey hand d acts) = false := by
      apply List.any_eq_false.mpr
      intro x hx
      exact hmiss x (List.mem_cons_of_mem e hx)
    rw [if_neg (by rw [hany]; exact Bool.false_ne_true)]
    rfl

/-! ### Claims -/

/-- Claim C1: for every hand with total in [4,21] (any softness/pair
flags), every dealer card (dealer values cover exactly [2,11]), and every
available-action set over the five actions containing hit and stand,
`getAdvice` returns a defined advice whose action is one of HIT, STAND,
DOUBLE, SPLIT, SURRENDER. -/
theorem claim1_getAdvice_always_defined (hand : Hand) (dealerCard : Rank)
    (acts : List String)
    (htl : 4 ≤ hand.total) (htu : hand.total ≤ 21)
    (hdl : 2 ≤ dealerValues dealerCard) (hdu : dealerValues dealerCard ≤ 11)
    (hhit : acts.contains "hit" = true) (hstand : acts.contains "stand" = true)
    (hsub : ∀ x ∈ acts, x ∈ (["hit", "stand", "double", "split", "surrender"] : List String)) :
    ((getAdvice (CacheState.mk []) hand dealerCard acts).1).action ∈
      (["HIT", "STAND", "DOUBLE", "SPLIT", "SURRENDER"] : List String) := by
  have key : (getAdvice (CacheState.mk []) hand dealerCard acts).1
      = computeAdvice hand (dealerValues dealerCard) acts := rfl
  rw [key]
  unfold computeAdvice
  split_ifs with h1 h2
  · simp only [Bool.and_eq_true, beq_iff_eq] at h1
    rw [h1.2]
    simp
  · rcases getSoftStrategy_action_cases hand.total (dealerValues dealerCard) acts with
      h | h | ⟨h, -⟩ <;> simp [h]
  · rcases getHardStrategy_action_cases hand.total (dealerValues dealerCard) acts with
      h | h | ⟨h, -⟩ | ⟨h, -⟩ <;> simp [h]

/-- Witness for C1 at a concrete input. -/
theorem claim1_witness :
    ((getAdvice (CacheState.mk []) (Hand.mk 16 false false []) Rank.r10
        ["hit", "stand"]).1).action ∈
      (["HIT", "STAND", "DOUBLE", "SPLIT", "SURRENDER"] : List String) :=
  claim1_getAdvice_always_defined (Hand.mk 16 false false []) Rank.r10
    ["hit", "stand"] (by decide) (by decide) (by decide) (by decide)
    (by decide) (by decide) (by decide)

/-- Claim C2 counterexample: at dealer value 9 a pair of 9s is SPLIT,
not STAND, so the claim's first formulation (SPLIT exactly for dealer in
2..6 or 8, STAND otherwise) is false at dealer 9. -/
theorem claim2_counterexample :
    (getPairStrategy (some Rank.r9) 9 ["hit", "stand", "split"]).action = "SPLIT" ∧
    (getPairStrategy (some Rank.r9) 9 ["hit", "stand", "split"]).action ≠ "STAND" := by
  constructor
  · decide
  · decide

/-- Claim C2 (amended): for a pair of 9s with split available, the pair
resolver returns STAND when the dealer value is 7 or at least 10, and
SPLIT otherwise (so SPLIT for dealer values 2..6, 8 and 9): the spec's
precise clause holds of the code. -/
theorem claim2_pair_nines_precise (d : Nat) (a : List String)
    (h2 : 2 ≤ d) (h11 : d ≤ 11) (hs : a.contains "split" = true) :
    (getPairStrategy (some Rank.r9) d a).action =
      if d = 7 ∨ d ≥ 10 then "STAND" else "SPLIT" := by
  interval_cases d <;> rfl

/-- Witness for C2 at a concrete input. -/
theorem claim2_witness :
    (getPairStrategy (some Rank.r9) 5 ["hit", "stand", "split"]).action =
      if (5 : Nat) = 7 ∨ (5 : Nat) ≥ 10 then "STAND" else "SPLIT" :=
  claim2_pair_nines_precise 5 ["hit", "stand", "split"]
    (by decide) (by decide) (by decide)

/-- Claim C3: for every card sequence of length 2..5 without aces whose
values sum to at most 21, `calculateHand` returns the arithmetic sum as
total and `isSoft = false`. -/
theorem claim3_classifier_no_aces (cards : List Rank)
    (hlen2 : 2 ≤ cards.length) (hlen5 : cards.length ≤ 5)
    (hnoace : Rank.rA ∉ cards)
    (hsum : (cards.map getCardValue).sum ≤ 21) :
    (calculateHand cards).total = (cards.map getCardValue).sum ∧
    (calculateHand cards).isSoft = false := by
  have hcount : cards.count Rank.rA = 0 := List.count_eq_zero.mpr hnoace
  have h1 : countHand cards = ((cards.map getCardValue).sum, 0) := by
    unfold countHand
    rw [countHand_go]
    simp [hcount]
  simp [calculateHand, h1, adjustForAces]

/-- Witness for C3 at a concrete input. -/
theorem claim3_witness :
    (calculateHand [Rank.r10, Rank.r7]).total
      = ([Rank.r10, Rank.r7].map getCardValue).sum ∧
    (calculateHand [Rank.r10, Rank.r7]).isSoft = false :=
  claim3_classifier_no_aces [Rank.r10, Rank.r7]
    (by decide) (by decide) (by decide) (by decide)

/-- Claim C4: for a hard non-pair hand of total 16, `getAdvice` returns
SURRENDER exactly when the dealer value is at least 9 and surrender is
available, otherwise STAND for dealer 2..6 and HIT otherwise, with the
surrender check first; in particular 16 against dealer 10 with
{hit, stand, surrender} is SURRENDER. -/
theorem claim4_hard_sixteen :
    (∀ (dealerCard : Rank) (acts : List String) (cards : List Rank),
      ((getAdvice (CacheState.mk []) (Hand.mk 16 false false cards)
          dealerCard acts).1).action =
        if 9 ≤ dealerValues dealerCard ∧ acts.contains "surrender" = true then
          "SURRENDER"
        else if 2 ≤ dealerValues dealerCard ∧ dealerValues dealerCard ≤ 6 then
          "STAND"
        else "HIT") ∧
    ((getAdvice (CacheState.mk []) (Hand.mk 16 false false []) Rank.r10
        ["hit", "stand", "surrender"]).1).action = "SURRENDER" := by
  constructor
  · intro dealerCard acts cards
    have key : (getAdvice (CacheState.mk []) (Hand.mk 16 false false cards)
        dealerCard acts).1 = getHardStrategy 16 (dealerValues dealerCard) acts := rfl
    rw [key]
    unfold getHardStrategy
    norm_num
    split_ifs <;> simp_all
  · decide

/-- Claim C5: `isPair` holds exactly of two-card hands whose numeric
values agree; in particular a 10 and a K form a pair. -/
theorem claim5_isPair_iff :
    (∀ cards : List Rank,
      ((calculateHand cards).isPair = true ↔
        ∃ c1 c2, cards = [c1, c2] ∧ getCardValue c1 = getCardValue c2)) ∧
    (calculateHand [Rank.r10, Rank.rK]).isPair = true := by
  constructor
  · intro cards
    rcases cards with - | ⟨c1, - | ⟨c2, - | ⟨c3, rest⟩⟩⟩
    · simp [calculateHand]
    · simp [calculateHand]
    · constructor
      · intro h
        refine ⟨c1, c2, rfl, ?_⟩
        simpa [calculateHand] using h
      · rintro ⟨a, b, hab, hv⟩
        obtain ⟨rfl, rfl⟩ : c1 = a ∧ c2 = b := by
          simpa using hab
        simpa [calculateHand] using hv
    · simp [calculateHand]
  · decide

/-- Witness for C5: the iff applied at the 10,K hand. -/
theorem claim5_witness :
    ∃ c1 c2, ([Rank.r10, Rank.rK] : List Rank) = [c1, c2] ∧
      getCardValue c1 = getCardValue c2 :=
  (claim5_isPair_iff.1 [Rank.r10, Rank.rK]).mp (by decide)

/-- Claim C6 counterexample: two permuted action lists with the same
actions produce different cache keys, so the key is not canonical over
the action set. -/
theorem claim6_counterexample :
    (["hit", "stand"] : List String).Perm ["stand", "hit"] ∧
    getCacheKey (Hand.mk 16 false false []) 10 ["hit", "stand"] ≠
      getCacheKey (Hand.mk 16 false false []) 10 ["stand", "hit"] := by
  constructor
  · decide
  · decide

/-- Claim C6 (amended): the cache key is canonical over the action
sequence, not the action set: `getCacheKey` ends with the comma-join of
`availableActions` in their given order, so any two action lists with
different joins (in particular permutations that change the order)
address different cache entries. -/
theorem claim6_key_order_sensitive (hand : Hand) (d : Nat)
    (a1 a2 : List String)
    (h : String.intercalate "," a1 ≠ String.intercalate "," a2) :
    getCacheKey hand d a1 ≠ getCacheKey hand d a2 := by
  intro he
  unfold getCacheKey at he
  exact h (string_append_cancel_left he)

/-- Witness for C6 at a concrete input. -/
theorem claim6_witness :
    getCacheKey (Hand.mk 16 false false []) 10 ["hit", "stand"] ≠
      getCacheKey (Hand.mk 16 false false []) 10 ["stand", "hit"] :=
  claim6_key_order_sensitive (Hand.mk 16 false false []) 10
    ["hit", "stand"] ["stand", "hit"] (by decide)

/-- Claim C7: after any sequence of `getAdvice` calls from a fresh
engine the cache holds at most `cacheMaxSize` (100) entries, and an
insertion into a full cache (distinct keys, key not present) removes
exactly the oldest entry and appends the new one at the end. -/
theorem claim7_cache_bound_and_fifo (qs : List Query) (st : CacheState)
    (hand : Hand) (d : Nat) (acts : List String) (advice : Advice) :
    (runQueries qs).entries.length ≤ cacheMaxSize ∧
    (st.entries.length = cacheMaxSize →
      (st.entries.map Prod.fst).Nodup →
      getCachedAdvice st hand d acts = none →
      (setCacheAdvice st hand d acts advice).entries
        = st.entries.tail ++ [(getCacheKey hand d acts, advice)]) :=
  ⟨runQueries_length_le qs,
   fun h1 h2 h3 => setCacheAdvice_evicts_oldest st hand d acts advice h1 h2 h3⟩

/-- Witness for C7: the bound after no queries, and eviction of the
oldest entry of a concrete full cache. -/
theorem claim7_witness :
    (runQueries []).entries.length ≤ cacheMaxSize ∧
    (setCacheAdvice fullCache (Hand.mk 16 false false []) 10 ["hit", "stand"]
        (Advice.mk "HIT" "")).entries
      = fullCache.entries.tail ++
          [(getCacheKey (Hand.mk 16 false false []) 10 ["hit", "stand"],
            Advice.mk "HIT" "")] := by
  obtain ⟨h1, h2⟩ := claim7_cache_bound_and_fifo [] fullCache
    (Hand.mk 16 false false []) 10 ["hit", "stand"] (Advice.mk "HIT" "")
  exact ⟨h1, h2 (by decide) (by decide) (by decide)⟩

/-- Claim C8: on a non-pair hand with split offered, `getAdvice` skips
the pair resolver, returns exactly the soft- or hard-strategy advice for
the hand, and never returns SPLIT. -/
theorem claim8_nonpair_falls_through (hand : Hand) (dealerCard : Rank)
    (acts : List String)
    (hp : hand.isPair = false) (hs : acts.contains "split" = true) :
    (getAdvice (CacheState.mk []) hand dealerCard acts).1 =
      (if hand.isSoft then
        getSoftStrategy hand.total (dealerValues dealerCard) acts
       else getHardStrategy hand.total (dealerValues dealerCard) acts) ∧
    ((getAdvice (CacheState.mk []) hand dealerCard acts).1).action ≠ "SPLIT" := by
  obtain ⟨t, soft, pair, cards⟩ := hand
  dsimp only at hp
  subst hp
  have key : (getAdvice (CacheState.mk []) ⟨t, soft, false, cards⟩ dealerCard acts).1
      = if soft then getSoftStrategy t (dealerValues dealerCard) acts
        else getHardStrategy t (dealerValues dealerCard) acts := rfl
  rw [key]
  refine ⟨rfl, ?_⟩
  cases soft
  · rcases getHardStrategy_action_cases t (dealerValues dealerCard) acts with
      h | h | ⟨h, -⟩ | ⟨h, -⟩ <;> simp [h]
  · rcases getSoftStrategy_action_cases t (dealerValues dealerCard) acts with
      h | h | ⟨h, -⟩ <;> simp [h]

/-- Witness for C8 at a concrete input. -/
theorem claim8_witness :
    (getAdvice (CacheState.mk []) (Hand.mk 16 false false []) Rank.r10
        ["hit", "stand", "split"]).1 =
      (if (Hand.mk 16 false false []).isSoft then
        getSoftStrategy (Hand.mk 16 false false []).total (dealerValues Rank.r10)
          ["hit", "stand", "split"]
       else getHardStrategy (Hand.mk 16 false false []).total (dealerValues Rank.r10)
          ["hit", "stand", "split"]) ∧
    ((getAdvice (CacheState.mk []) (Hand.mk 16 false false []) Rank.r10
        ["hit", "stand", "split"]).1).action ≠ "SPLIT" :=
  claim8_nonpair_falls_through (Hand.mk 16 false false []) Rank.r10
    ["hit", "stand", "split"] (by decide) (by decide)

/-- Claim C9: every card rank has a pair value in [2,11], and for every
rank the final default delegation of `getPairStrategy` is unreachable:
one of the earlier branches fires first. -/
theorem claim9_pair_default_unreachable :
    ∀ r : Rank, 2 ≤ dealerValues r ∧ dealerValues r ≤ 11 ∧
      pairDefaultReached (some r) = false := by
  intro r
  cases r <;> decide

/-- Claim C10: under the C1 input conditions, the advised action is
always permitted: DOUBLE, SPLIT and SURRENDER are only advised when the
corresponding lowercase action is in `availableActions`. -/
theorem claim10_action_always_permitted (hand : Hand) (dealerCard : Rank)
    (acts : List String)
    (htl : 4 ≤ hand.total) (htu : hand.total ≤ 21)
    (hhit : acts.contains "hit" = true) (hstand : acts.contains "stand" = true) :
    ((getAdvice (CacheState.mk []) hand dealerCard acts).1).action = "HIT" ∨
    ((getAdvice (CacheState.mk []) hand dealerCard acts).1).action = "STAND" ∨
    (((getAdvice (CacheState.mk []) hand dealerCard acts).1).action = "DOUBLE" ∧
      acts.contains "double" = true) ∨
    (((getAdvice (CacheState.mk []) hand dealerCard acts).1).action = "SPLIT" ∧
      acts.contains "split" = true) ∨
    (((getAdvice (CacheState.mk []) hand dealerCard acts).1).action = "SURRENDER" ∧
      acts.contains "surrender" = true) := by
  have key : (getAdvice (CacheState.mk []) hand dealerCard acts).1
      = computeAdvice hand (dealerValues dealerCard) acts := rfl
  rw [key]
  unfold computeAdvice
  split_ifs with h1 h2
  · simp only [Bool.and_eq_true, beq_iff_eq] at h1
    exact Or.inr (Or.inr (Or.inr (Or.inl ⟨h1.2, h1.1.2⟩)))
  · rcases getSoftStrategy_action_cases hand.total (dealerValues dealerCard) acts with
      h | h | ⟨h, hd⟩
    · exact Or.inl h
    · exact Or.inr (Or.inl h)
    · exact Or.inr (Or.inr (Or.inl ⟨h, hd⟩))
  · rcases getHardStrategy_action_cases hand.total (dealerValues dealerCard) acts with
      h | h | ⟨h, hd⟩ | ⟨h, hd⟩
    · exact Or.inl h
    · exact Or.inr (Or.inl h)
    · exact Or.inr (Or.inr (Or.inl ⟨h, hd⟩))
    · exact Or.inr (Or.inr (Or.inr (Or.inr ⟨h, hd⟩)))

/-- Witness for C10 at a concrete input. -/
theorem claim10_witness :
    ((getAdvice (CacheState.mk []) (Hand.mk 16 false false []) Rank.r10
        ["hit", "stand"]).1).action = "HIT" ∨
    ((getAdvice (CacheState.mk []) (Hand.mk 16 false false []) Rank.r10
        ["hit", "stand"]).1).action = "STAND" ∨
    (((getAdvice (CacheState.mk []) (Hand.mk 16 false false []) Rank.r10
        ["hit", "stand"]).1).action = "DOUBLE" ∧
      (["hit", "stand"] : List String).contains "double" = true) ∨
    (((getAdvice (CacheState.mk []) (Hand.mk 16 false false []) Rank.r10
        ["hit", "stand"]).1).action = "SPLIT" ∧
      (["hit", "stand"] : List String).contains "split" = true) ∨
    (((getAdvice (CacheState.mk []) (Hand.mk 16 false false []) Rank.r10
        ["hit", "stand"]).1).action = "SURRENDER" ∧
      (["hit", "stand"] : List String).contains "surrender" = true) :=
  claim10_action_always_permitted (Hand.mk 16 false false []) Rank.r10
    ["hit", "stand"] (by decide) (by decide) (by decide) (by decide)
